import Mathlib

/-!
Shallow embedding of the golibjpegturbo JPEG decode/encode pipelines
(decode.go, encode.go, jpeg_common.c) and proofs about them.

The native libjpeg-turbo codec is treated as a black box: its observable
behavior within one call (header result, per-row scanline bytes, possible
fatal-error callback firings, and the compressed output) is a parameter of
the embedding (`NativeSrc` for decode, `NativeEnc` for encode).  Every
native call and heap (de)allocation performed by the Go code is recorded in
an event trace so that ordering and teardown properties are statable.
Go `defer` semantics are reflected by appending the deferred events on
every exit path on which the corresponding `defer` statement had run.
-/

set_option autoImplicit false

namespace GoLibJpegTurbo

/-- Read of one byte from a C `unsigned char` buffer: out of the modelled
range the value is 0, and the uchar type bounds the value below 256. -/
def byteAt (row : List Nat) (i : Nat) : Nat := row.getD i 0 % 256

/-- Result of Go `copy(dst, src)` into a freshly zero-initialized slice of
length `n`: the first `min n src.length` bytes of `src`, zero-padded. -/
def copyRow (n : Nat) (src : List Nat) : List Nat :=
  src.take n ++ List.replicate (n - src.length) 0

/-- Imperative accumulation loop: the concatenation `f 0 ++ f 1 ++ ... ++ f (n-1)`,
mirroring a `for` loop appending one chunk per iteration. -/
def loopAppend {α : Type} (f : Nat → List α) : Nat → List α
  | 0 => []
  | n + 1 => loopAppend f n ++ f n

theorem byteAt_lt (row : List Nat) (i : Nat) : byteAt row i < 256 :=
  Nat.mod_lt _ (by decide)

theorem copyRow_length (n : Nat) (src : List Nat) : (copyRow n src).length = n := by
  simp [copyRow]
  omega

theorem getD_take {α : Type} (l : List α) (n i : Nat) (d : α) (h : i < n) :
    (l.take n).getD i d = l.getD i d := by
  induction l generalizing n i with
  | nil => simp
  | cons a t ih =>
    cases n with
    | zero => omega
    | succ n =>
      cases i with
      | zero => simp
      | succ i =>
        simp only [List.take_succ_cons, List.getD_cons_succ]
        exact ih n i (by omega)

theorem getD_drop {α : Type} (l : List α) (n i : Nat) (d : α) :
    (l.drop n).getD i d = l.getD (n + i) d := by
  induction n generalizing l with
  | zero => simp
  | succ n ih =>
    cases l with
    | nil => simp
    | cons a t =>
      have hsh : n + 1 + i = (n + i) + 1 := by omega
      rw [hsh]
      simp only [List.drop_succ_cons, List.getD_cons_succ]
      exact ih t

theorem copyRow_getD (n : Nat) (src : List Nat) (i : Nat) (hi : i < n)
    (hlen : i < src.length) : (copyRow n src).getD i 0 = src.getD i 0 := by
  unfold copyRow
  rw [List.getD_append _ _ _ _ (by simp; omega)]
  exact getD_take src n i 0 hi

theorem loopAppend_length {α : Type} (f : Nat → List α) (L : Nat)
    (hL : ∀ i, (f i).length = L) : ∀ n, (loopAppend f n).length = n * L := by
  intro n
  induction n with
  | zero => simp [loopAppend]
  | succ n ih => simp [loopAppend, ih, hL, Nat.succ_mul]

theorem loopAppend_getD {α : Type} (f : Nat → List α) (L n y j idx : Nat)
    (hL : ∀ i, (f i).length = L) (hy : y < n) (hj : j < L)
    (hidx : idx = y * L + j) (d : α) :
    (loopAppend f n).getD idx d = (f y).getD j d := by
  subst hidx
  induction n with
  | zero => omega
  | succ n ih =>
    by_cases hyn : y < n
    · rw [loopAppend, List.getD_append _ _ _ _ (by
        rw [loopAppend_length f L hL n]
        have : y + 1 ≤ n := hyn
        calc y * L + j < y * L + L := by omega
          _ = (y + 1) * L := by ring
          _ ≤ n * L := Nat.mul_le_mul_right L this)]
      exact ih hyn
    · have hyeq : y = n := by omega
      subst hyeq
      rw [loopAppend, List.getD_append_right _ _ _ _ (by
        rw [loopAppend_length f L hL y]; omega)]
      rw [loopAppend_length f L hL y]
      congr 1
      omega

/-- A decoded grayscale image, mirroring the fields of Go `image.Gray`
produced by `image.NewGray` (stride is set to the width). -/
structure GrayImage where
  dx : Nat
  dy : Nat
  stride : Nat
  pix : List Nat
deriving DecidableEq, Repr

/-- A decoded RGBA image, mirroring the fields of Go `image.RGBA`
produced by `image.NewRGBA` (stride is four times the width). -/
structure RGBAImage where
  dx : Nat
  dy : Nat
  stride : Nat
  pix : List Nat
deriving DecidableEq, Repr

/-- Wrap of a value into the `uint32` range, used where the Go source
performs `uint32` arithmetic. -/
def u32 (n : Nat) : Nat := n % 4294967296

/-- One pixel of the inverted-CMYK correction of `decodeCmykToRgba`:
`r := uint8(c * k / 255)` and likewise for g and b, with c, m, y, k read as
`uint32` values of the four scanline bytes; alpha is written as 255. -/
def cmykPixelToRgba (c m y k : Nat) : List Nat :=
  [u32 (u32 c * u32 k) / 255 % 256,
   u32 (u32 m * u32 k) / 255 % 256,
   u32 (u32 y * u32 k) / 255 % 256,
   255]

/-- One scanline of `decodeCmykToRgba`: the inner `for x` loop reading four
consecutive bytes per pixel from the scratch row and writing four RGBA
bytes per pixel. -/
def cmykRowToRgba (row : List Nat) (dx : Nat) : List Nat :=
  loopAppend (fun x =>
    cmykPixelToRgba (byteAt row (4 * x)) (byteAt row (4 * x + 1))
      (byteAt row (4 * x + 2)) (byteAt row (4 * x + 3))) dx

/-- Image built by `decodeCmykToRgba`: one converted row per scanline. -/
def decodeCmykToRgba (dx dy : Nat) (scan : Nat → List Nat) : RGBAImage :=
  ⟨dx, dy, 4 * dx, loopAppend (fun y => cmykRowToRgba (scan y) dx) dy⟩

/-- Image built by `decodeToGray`: each scanline is copied 1 byte/pixel
into the row of the destination (`copy(img.Pix[off:off+nBytes], buf)`). -/
def decodeToGray (dx dy : Nat) (scan : Nat → List Nat) : GrayImage :=
  ⟨dx, dy, dx, loopAppend (fun y => copyRow dx (scan y)) dy⟩

/-- Image built by `decodeToRgba`: each native extended-RGBA scanline is
copied 4 bytes/pixel into the row of the destination. -/
def decodeToRgba (dx dy : Nat) (scan : Nat → List Nat) : RGBAImage :=
  ⟨dx, dy, 4 * dx, loopAppend (fun y => copyRow (4 * dx) (scan y)) dy⟩

theorem cmykPixelToRgba_length (c m y k : Nat) : (cmykPixelToRgba c m y k).length = 4 := rfl

theorem cmykRowToRgba_length (row : List Nat) (dx : Nat) :
    (cmykRowToRgba row dx).length = dx * 4 :=
  loopAppend_length _ 4 (fun _ => by simp [cmykPixelToRgba]) dx

example : cmykPixelToRgba 0 0 0 255 = [0, 0, 0, 255] := by decide
example : cmykPixelToRgba 255 255 255 0 = [0, 0, 0, 255] := by decide
example : cmykPixelToRgba 255 255 255 255 = [255, 255, 255, 255] := by decide
example : cmykPixelToRgba 2 100 200 200 = [1, 78, 156, 255] := by decide

/-- Output colorspace requested from the native decoder: either the
default chosen by the library for the file, or `JCS_EXT_RGBA` as set by
`DecodeData` for 3-component images. -/
inductive OutColorSpace where
  | dflt
  | extRGBA
deriving DecidableEq, Repr

/-- Native calls and heap operations performed by `DecodeData` and its
helpers, in program order. -/
inductive DecEvent where
  | mallocCinfo
  | mallocErr
  | createDecompress
  | memSrc
  | readHeader
  | setExtRgba
  | startDecompress
  | mallocScratch
  | readRow (y : Nat)
  | freeScratch
  | finishDecompress
  | destroyDecompress
  | freeErr
  | freeCinfo
deriving DecidableEq, Repr

/-- The distinct error values the package can return.  Each constructor
corresponds to one error site of the Go code: the two `fmt.Errorf` sites in
`DecodeData`, the size check in `Encode`, a recovered panic raised by the
native `error_panic` callback (via `goPanic`), and a recovered Go runtime
panic. -/
inductive JpegError where
  | headerFailed (res : Int)
  | invalidComponents (n : Nat)
  | invalidSize (dx dy : Int)
  | nativeFatal (msg : String)
  | runtimePanic (msg : String)
deriving DecidableEq, Repr

/-- Observable behavior of the native decompressor over one input, treated
as a black box: the header-read outcome, the header fields, whether the
fatal-error callback fires during start or during the read of a given
scanline, and the bytes each scanline read deposits in the scratch row
(depending on the requested output colorspace). -/
structure NativeSrc where
  headerFatal : Option String
  headerRes : Int
  numComponents : Nat
  width : Nat
  height : Nat
  startFatal : Option String
  scanFatal : OutColorSpace → Nat → Option String
  scan : OutColorSpace → Nat → List Nat

/-- Result image of a decode: `DecodeData` returns either a grayscale or
an RGBA `image.Image`. -/
inductive DecodedImage where
  | gray (g : GrayImage)
  | rgba (r : RGBAImage)
deriving DecidableEq, Repr

/-- Scanline loop shared by the three decode helpers: one
`jpeg_read_scanlines` call per row, accumulating the marshaled rows; a
fatal-error callback firing during a read aborts the loop by panicking. -/
def readLoop (src : NativeSrc) (cs : OutColorSpace) (rowFn : List Nat → List Nat) :
    Nat → Except String (List Nat) × List DecEvent
  | 0 => (Except.ok [], [])
  | n + 1 =>
    match readLoop src cs rowFn n with
    | (Except.ok px, evs) =>
      match src.scanFatal cs n with
      | some msg => (Except.error msg, evs ++ [DecEvent.readRow n])
      | none => (Except.ok (px ++ rowFn (src.scan cs n)), evs ++ [DecEvent.readRow n])
    | (Except.error e, evs) => (Except.error e, evs)

/-- Deferred cleanup of `DecodeData`, run on every exit path (the recover
runs the defers even on panic): `jpeg_finish_decompress` if its `defer`
was reached, then `jpeg_destroy_decompress`, `free(cinfo.err)`,
`free(cinfo)` in LIFO order. -/
def decDefers (started : Bool) : List DecEvent :=
  (if started then [DecEvent.finishDecompress] else []) ++
    [DecEvent.destroyDecompress, DecEvent.freeErr, DecEvent.freeCinfo]

/-- The body of one decode helper call: scratch malloc, the scanline loop,
and the scratch free which in the source is not deferred and therefore
runs only when the loop finishes without a panic. -/
def decodeRows (src : NativeSrc) (cs : OutColorSpace) (rowFn : List Nat → List Nat)
    (dy : Nat) : Except String (List Nat) × List DecEvent :=
  match readLoop src cs rowFn dy with
  | (Except.ok px, evs) =>
    (Except.ok px, DecEvent.mallocScratch :: evs ++ [DecEvent.freeScratch])
  | (Except.error e, evs) => (Except.error e, DecEvent.mallocScratch :: evs)

/-- Embedding of `DecodeData`: returns the `(img, err)` pair produced by
the function (after its deferred recover) together with the trace of
native calls and heap operations.  The input bytes `d` enter the model
through the `!d.isEmpty` guard implicit in `&d[0]` and through the
black-box `NativeSrc` behavior derived from them. -/
def decodeData (d : List Nat) (src : NativeSrc) :
    (Option DecodedImage × Option JpegError) × List DecEvent :=
  let evs0 := [DecEvent.mallocCinfo, DecEvent.mallocErr, DecEvent.createDecompress]
  if d = [] then
    ((none, some (JpegError.runtimePanic "runtime error: index out of range")),
      evs0 ++ decDefers false)
  else
    let evs1 := evs0 ++ [DecEvent.memSrc, DecEvent.readHeader]
    match src.headerFatal with
    | some msg => ((none, some (JpegError.nativeFatal msg)), evs1 ++ decDefers false)
    | none =>
      if src.headerRes ≠ 1 then
        ((none, some (JpegError.headerFailed src.headerRes)), evs1 ++ decDefers false)
      else
        let cs := if src.numComponents = 3 then OutColorSpace.extRGBA else OutColorSpace.dflt
        let evs2 := evs1 ++
          (if src.numComponents = 3 then [DecEvent.setExtRgba] else []) ++
          [DecEvent.startDecompress]
        match src.startFatal with
        | some msg => ((none, some (JpegError.nativeFatal msg)), evs2 ++ decDefers false)
        | none =>
          if src.numComponents = 1 then
            match decodeRows src cs (copyRow src.width) src.height with
            | (Except.ok px, evs) =>
              ((some (DecodedImage.gray ⟨src.width, src.height, src.width, px⟩), none),
                evs2 ++ evs ++ decDefers true)
            | (Except.error msg, evs) =>
              ((none, some (JpegError.nativeFatal msg)), evs2 ++ evs ++ decDefers true)
          else if src.numComponents = 3 then
            match decodeRows src cs (copyRow (4 * src.width)) src.height with
            | (Except.ok px, evs) =>
              ((some (DecodedImage.rgba ⟨src.width, src.height, 4 * src.width, px⟩), none),
                evs2 ++ evs ++ decDefers true)
            | (Except.error msg, evs) =>
              ((none, some (JpegError.nativeFatal msg)), evs2 ++ evs ++ decDefers true)
          else if src.numComponents = 4 then
            match decodeRows src cs (fun row => cmykRowToRgba row src.width) src.height with
            | (Except.ok px, evs) =>
              ((some (DecodedImage.rgba ⟨src.width, src.height, 4 * src.width, px⟩), none),
                evs2 ++ evs ++ decDefers true)
            | (Except.error msg, evs) =>
              ((none, some (JpegError.nativeFatal msg)), evs2 ++ evs ++ decDefers true)
          else
            ((none, some (JpegError.invalidComponents src.numComponents)),
              evs2 ++ decDefers true)

theorem readLoop_noFatal (src : NativeSrc) (cs : OutColorSpace)
    (rowFn : List Nat → List Nat) (n : Nat)
    (h : ∀ y, y < n → src.scanFatal cs y = none) :
    readLoop src cs rowFn n =
      (Except.ok (loopAppend (fun y => rowFn (src.scan cs y)) n),
        (List.range n).map DecEvent.readRow) := by
  induction n with
  | zero => rfl
  | succ n ih =>
    rw [readLoop, ih (fun y hy => h y (by omega)), h n (by omega)]
    simp [loopAppend, List.range_succ]

theorem readLoop_ok_inv (src : NativeSrc) (cs : OutColorSpace)
    (rowFn : List Nat → List Nat) (n : Nat) (px : List Nat) (evs : List DecEvent)
    (h : readLoop src cs rowFn n = (Except.ok px, evs)) :
    px = loopAppend (fun y => rowFn (src.scan cs y)) n := by
  induction n generalizing px evs with
  | zero =>
    simp only [readLoop] at h
    cases h
    rfl
  | succ n ih =>
    rw [readLoop] at h
    cases hrl : readLoop src cs rowFn n with
    | mk res evsn =>
      rw [hrl] at h
      cases res with
      | ok pxn =>
        cases hsf : src.scanFatal cs n with
        | some msg => rw [hsf] at h; simp at h
        | none =>
          rw [hsf] at h
          simp only [Prod.mk.injEq, Except.ok.injEq] at h
          rw [loopAppend, ← ih pxn evsn hrl, h.1]
      | error e => simp at h

theorem cmykPixelToRgba_eq (c m y k : Nat) (hc : c < 256) (hm : m < 256)
    (hy : y < 256) (hk : k < 256) :
    cmykPixelToRgba c m y k = [c * k / 255, m * k / 255, y * k / 255, 255] := by
  have hprod : ∀ a b : Nat, a < 256 → b < 256 →
      u32 (u32 a * u32 b) / 255 % 256 = a * b / 255 := by
    intro a b ha hb
    have hab : a * b < 4294967296 := by
      calc a * b ≤ 255 * 255 := Nat.mul_le_mul (by omega) (by omega)
        _ < 4294967296 := by norm_num
    have hdiv : a * b / 255 < 256 := by
      rw [Nat.div_lt_iff_lt_mul (by norm_num)]
      calc a * b ≤ 255 * 255 := Nat.mul_le_mul (by omega) (by omega)
        _ < 256 * 255 := by norm_num
    unfold u32
    rw [Nat.mod_eq_of_lt (by omega : a < 4294967296),
      Nat.mod_eq_of_lt (by omega : b < 4294967296),
      Nat.mod_eq_of_lt hab, Nat.mod_eq_of_lt hdiv]
  unfold cmykPixelToRgba
  rw [hprod c k hc hk, hprod m k hm hk, hprod y k hy hk]

/-- C1: for every decoded scanline of a 4-component (inverted-CMYK) JPEG,
each output RGBA pixel is computed from the four raw scanline bytes
C, M, Y, K read in that order as R = C*K/255, G = M*K/255, B = Y*K/255
(unsigned integer arithmetic on byte values with truncating division,
every result fitting in 8 bits) and A = 255; in particular the input
C=M=Y=0, K=255 yields the pixel (0,0,0,255) and the input C=M=Y=255, K=0
also yields (0,0,0,255). -/
theorem cmyk_conversion_formula (dx dy : Nat) (scan : Nat → List Nat) (x y : Nat)
    (hx : x < dx) (hy : y < dy) :
    ((decodeCmykToRgba dx dy scan).pix.getD
        (y * (decodeCmykToRgba dx dy scan).stride + 4 * x) 0 =
      byteAt (scan y) (4 * x) * byteAt (scan y) (4 * x + 3) / 255) ∧
    ((decodeCmykToRgba dx dy scan).pix.getD
        (y * (decodeCmykToRgba dx dy scan).stride + 4 * x + 1) 0 =
      byteAt (scan y) (4 * x + 1) * byteAt (scan y) (4 * x + 3) / 255) ∧
    ((decodeCmykToRgba dx dy scan).pix.getD
        (y * (decodeCmykToRgba dx dy scan).stride + 4 * x + 2) 0 =
      byteAt (scan y) (4 * x + 2) * byteAt (scan y) (4 * x + 3) / 255) ∧
    ((decodeCmykToRgba dx dy scan).pix.getD
        (y * (decodeCmykToRgba dx dy scan).stride + 4 * x + 3) 0 = 255) ∧
    cmykPixelToRgba 0 0 0 255 = [0, 0, 0, 255] ∧
    cmykPixelToRgba 255 255 255 0 = [0, 0, 0, 255] := by
  have hpx : ∀ j, j < 4 →
      (decodeCmykToRgba dx dy scan).pix.getD
          (y * (decodeCmykToRgba dx dy scan).stride + 4 * x + j) 0 =
        (cmykPixelToRgba (byteAt (scan y) (4 * x)) (byteAt (scan y) (4 * x + 1))
          (byteAt (scan y) (4 * x + 2)) (byteAt (scan y) (4 * x + 3))).getD j 0 := by
    intro j hj
    show (loopAppend (fun r => cmykRowToRgba (scan r) dx) dy).getD
        (y * (4 * dx) + 4 * x + j) 0 = _
    rw [loopAppend_getD _ (dx * 4) dy y (4 * x + j) _
      (fun r => cmykRowToRgba_length (scan r) dx) hy (by omega) (by ring) 0]
    unfold cmykRowToRgba
    rw [loopAppend_getD _ 4 dx x j _ (fun i => by simp [cmykPixelToRgba]) hx hj
      (by ring) 0]
  have hform := cmykPixelToRgba_eq (byteAt (scan y) (4 * x))
    (byteAt (scan y) (4 * x + 1)) (byteAt (scan y) (4 * x + 2))
    (byteAt (scan y) (4 * x + 3)) (byteAt_lt _ _) (byteAt_lt _ _)
    (byteAt_lt _ _) (byteAt_lt _ _)
  refine ⟨?_, ?_, ?_, ?_, by decide, by decide⟩
  · have h := hpx 0 (by omega)
    rw [hform] at h
    simpa using h
  · have h := hpx 1 (by omega)
    rw [hform] at h
    simpa using h
  · have h := hpx 2 (by omega)
    rw [hform] at h
    simpa using h
  · have h := hpx 3 (by omega)
    rw [hform] at h
    simpa using h

/-- Witness for C1: a concrete 1 by 1 inverted-CMYK scanline with bytes
C=10, M=20, Y=30, K=200 decodes to the pixel (7, 15, 23, 255). -/
theorem cmyk_conversion_formula_witness :
    (decodeCmykToRgba 1 1 (fun _ => [10, 20, 30, 200])).pix.getD 0 0 = 7 ∧
    (decodeCmykToRgba 1 1 (fun _ => [10, 20, 30, 200])).pix.getD 1 0 = 15 ∧
    (decodeCmykToRgba 1 1 (fun _ => [10, 20, 30, 200])).pix.getD 2 0 = 23 ∧
    (decodeCmykToRgba 1 1 (fun _ => [10, 20, 30, 200])).pix.getD 3 0 = 255 := by
  have h := cmyk_conversion_formula 1 1 (fun _ => [10, 20, 30, 200]) 0 0
    (by decide) (by decide)
  refine ⟨?_, ?_, ?_, ?_⟩
  · have h1 := h.1
    simp only [byteAt] at h1
    simpa using h1
  · have h1 := h.2.1
    simp only [byteAt] at h1
    simpa using h1
  · have h1 := h.2.2.1
    simp only [byteAt] at h1
    simpa using h1
  · have h1 := h.2.2.2.1
    simpa using h1

/-- Encoding parameters: mirrors the Go `Options` struct. -/
structure Options where
  quality : Int
deriving DecidableEq, Repr

/-- Pixel storage of the image passed to `Encode`, as the type switch of
the source sees it: a concrete `image.Gray`, a concrete `image.RGBA`, or
any other `image.Image` accessed through `At(x, y).RGBA()` which yields
16-bit-range red, green, blue, alpha channel values. -/
inductive PixSrc where
  | gray (stride : Nat) (pix : List Nat)
  | rgba (stride : Nat) (pix : List Nat)
  | generic (pxAt : Nat → Nat → Nat × Nat × Nat × Nat)

/-- The image argument of `Encode`: bounds (which in Go may be empty or
negative) plus the pixel storage. -/
structure GoImage where
  dx : Int
  dy : Int
  src : PixSrc

/-- Native calls and heap operations performed by `Encode`, in program
order. -/
inductive EncEvent where
  | mallocCinfo
  | mallocErr
  | allocMemHelper
  | createCompress
  | memDest
  | setDefaults
  | setQuality (q : Int)
  | startCompress
  | mallocScratch
  | writeRow (y : Nat)
  | finishCompress
  | destroyCompress
  | writeOutput
  | freeMemBuf
  | freeScratch
  | freeMemHelper
  | freeErr
  | freeCinfo
deriving DecidableEq, Repr

/-- Observable behavior of the native compressor, treated as a black box:
a deterministic function from the configured dimensions, component count,
quality and the sequence of scanlines written to the compressed output
bytes, plus whether the fatal-error callback fires during the write of a
given scanline. -/
structure NativeEnc where
  compress : Int → Int → Nat → Int → List (List Nat) → List Nat
  writeFatal : Nat → Option String

/-- High byte of a 16-bit-range channel value: `byte(r >> 8)` applied to
the `uint32` returned by `color.Color.RGBA()`. -/
def hi8 (v : Nat) : Nat := v / 256 % 256

/-- Encode-direction scanline marshaling for an `image.Gray` source:
`copy(buf, gray.Pix[off:off+nBytes])` with `nBytes = dx`. -/
def grayEncRow (stride : Nat) (pix : List Nat) (dx y : Nat) : List Nat :=
  copyRow dx (pix.drop (y * stride))

/-- Encode-direction scanline marshaling for an `image.RGBA` source: per
pixel the three bytes `p[srcOff]`, `p[srcOff+1]`, `p[srcOff+2]` are copied
and the alpha byte skipped (`srcOff += 2` after the third copy), packing 3
bytes per pixel. -/
def rgbaEncRow (stride : Nat) (pix : List Nat) (dx y : Nat) : List Nat :=
  loopAppend (fun x =>
    [(pix.drop (y * stride)).getD (4 * x) 0,
     (pix.drop (y * stride)).getD (4 * x + 1) 0,
     (pix.drop (y * stride)).getD (4 * x + 2) 0]) dx

/-- Encode-direction scanline marshaling for any other source: per pixel
`r, g, b, _ := m.At(x, y).RGBA()` and the high byte of each channel is
packed, discarding alpha. -/
def genericEncRow (pxAt : Nat → Nat → Nat × Nat × Nat × Nat) (dx y : Nat) : List Nat :=
  loopAppend (fun x =>
    [hi8 (pxAt x y).1, hi8 (pxAt x y).2.1, hi8 (pxAt x y).2.2.1]) dx

/-- Row marshaler selected by the type switch of `Encode`. -/
def encRow (s : PixSrc) (dx y : Nat) : List Nat :=
  match s with
  | PixSrc.gray stride pix => grayEncRow stride pix dx y
  | PixSrc.rgba stride pix => rgbaEncRow stride pix dx y
  | PixSrc.generic pxAt => genericEncRow pxAt dx y

/-- Value of `cinfo.input_components` chosen by `Encode`: 1 for a gray
source, 3 otherwise. -/
def inputComponents (s : PixSrc) : Nat :=
  match s with
  | PixSrc.gray _ _ => 1
  | _ => 3

/-- Quality resolution of `Encode`: 75 unless a non-nil options pointer
supplies a value, which is then used as-is. -/
def resolveQuality (o : Option Options) : Int :=
  match o with
  | none => 75
  | some opts => opts.quality

/-- Scanline write loop of `Encode`: one `jpeg_write_scanlines` call per
row; a fatal-error callback firing during a write aborts the loop by
panicking.  On success it returns the rows delivered to the codec. -/
def writeLoop (enc : NativeEnc) (rowFn : Nat → List Nat) :
    Nat → Except String (List (List Nat)) × List EncEvent
  | 0 => (Except.ok [], [])
  | n + 1 =>
    match writeLoop enc rowFn n with
    | (Except.ok rows, evs) =>
      match enc.writeFatal n with
      | some msg => (Except.error msg, evs ++ [EncEvent.writeRow n])
      | none => (Except.ok (rows ++ [rowFn n]), evs ++ [EncEvent.writeRow n])
    | (Except.error e, evs) => (Except.error e, evs)

/-- Events of `Encode` before the row loop, in program order: the two
struct mallocs, `alloc_mem_helper`, `jpeg_CreateCompress`,
`jpeg_mem_dest`, `jpeg_set_defaults`, `jpeg_set_quality` with the resolved
quality, `jpeg_start_compress` and the scratch-row malloc. -/
def encPrologue (q : Int) : List EncEvent :=
  [EncEvent.mallocCinfo, EncEvent.mallocErr, EncEvent.allocMemHelper,
   EncEvent.createCompress, EncEvent.memDest, EncEvent.setDefaults,
   EncEvent.setQuality q, EncEvent.startCompress, EncEvent.mallocScratch]

/-- Embedding of `Encode`: returns the bytes written to `w` (none when the
body failed before the single `w.Write` at the end) and the error, plus
the trace of native calls and heap operations.  Only `free(cinfo)` and
`free(cinfo.err)` are deferred in the source; all other teardown is
straight-line code after the write loop. -/
def encode (m : GoImage) (o : Option Options) (enc : NativeEnc) :
    (Option (List Nat) × Option JpegError) × List EncEvent :=
  if m.dx ≤ 0 ∨ m.dy ≤ 0 then
    ((none, some (JpegError.invalidSize m.dx m.dy)), [])
  else
    match writeLoop enc (encRow m.src m.dx.toNat) m.dy.toNat with
    | (Except.ok rows, wevs) =>
      ((some (enc.compress m.dx m.dy (inputComponents m.src) (resolveQuality o) rows),
          none),
        encPrologue (resolveQuality o) ++ wevs ++
          [EncEvent.finishCompress, EncEvent.destroyCompress, EncEvent.writeOutput,
           EncEvent.freeMemBuf, EncEvent.freeScratch, EncEvent.freeMemHelper,
           EncEvent.freeErr, EncEvent.freeCinfo])
    | (Except.error msg, wevs) =>
      ((none, some (JpegError.nativeFatal msg)),
        encPrologue (resolveQuality o) ++ wevs ++ [EncEvent.freeErr, EncEvent.freeCinfo])

theorem writeLoop_ok_inv (enc : NativeEnc) (rowFn : Nat → List Nat) (n : Nat)
    (rows : List (List Nat)) (evs : List EncEvent)
    (h : writeLoop enc rowFn n = (Except.ok rows, evs)) :
    rows = (List.range n).map rowFn := by
  induction n generalizing rows evs with
  | zero =>
    simp only [writeLoop] at h
    cases h
    rfl
  | succ n ih =>
    rw [writeLoop] at h
    cases hwl : writeLoop enc rowFn n with
    | mk res evsn =>
      rw [hwl] at h
      cases res with
      | ok rowsn =>
        cases hwf : enc.writeFatal n with
        | some msg => rw [hwf] at h; simp at h
        | none =>
          rw [hwf] at h
          simp only [Prod.mk.injEq, Except.ok.injEq] at h
          rw [List.range_succ, List.map_append, ← ih rowsn evsn hwl, ← h.1]
          rfl
      | error e => simp at h

/-- C3: for every image whose width or height is zero or negative,
`Encode` returns the invalid-size error, and this check happens before any
native-library call or native allocation occurs: the trace of native
operations is empty. -/
theorem encode_size_validation (m : GoImage) (o : Option Options) (enc : NativeEnc)
    (h : m.dx ≤ 0 ∨ m.dy ≤ 0) :
    (encode m o enc).1 = (none, some (JpegError.invalidSize m.dx m.dy)) ∧
    (encode m o enc).2 = [] := by
  unfold encode
  rw [if_pos h]
  exact ⟨rfl, rfl⟩

/-- Witness for C3: a width-0 image is rejected with the invalid-size
error and an empty native trace. -/
theorem encode_size_validation_witness :
    (encode ⟨0, 5, PixSrc.gray 0 []⟩ none
        ⟨fun _ _ _ _ _ => [], fun _ => none⟩).1 =
      (none, some (JpegError.invalidSize 0 5)) ∧
    (encode ⟨0, 5, PixSrc.gray 0 []⟩ none
        ⟨fun _ _ _ _ _ => [], fun _ => none⟩).2 = [] :=
  encode_size_validation ⟨0, 5, PixSrc.gray 0 []⟩ none
    ⟨fun _ _ _ _ _ => [], fun _ => none⟩ (Or.inl (by decide))

/-- C5: encoding with nil options uses quality 75, and for every image the
whole result of encoding with omitted quality equals the result of
encoding the same image with explicit quality 75 (in particular the output
bytes are identical). -/
theorem encode_default_quality (m : GoImage) (enc : NativeEnc) :
    resolveQuality none = 75 ∧
    encode m none enc = encode m (some ⟨75⟩) enc :=
  ⟨rfl, rfl⟩

/-- C10: for every non-nil options value, `Encode` passes the quality
field to the native `jpeg_set_quality` call unmodified with no clamping
and no defaulting, and the default 75 is passed only for a nil options
pointer. -/
theorem quality_forwarded_unmodified (m : GoImage) (o : Options) (enc : NativeEnc)
    (hdx : 0 < m.dx) (hdy : 0 < m.dy) :
    resolveQuality (some o) = o.quality ∧
    EncEvent.setQuality o.quality ∈ (encode m (some o) enc).2 ∧
    EncEvent.setQuality 75 ∈ (encode m none enc).2 := by
  have hmem : ∀ oo : Option Options,
      EncEvent.setQuality (resolveQuality oo) ∈ (encode m oo enc).2 := by
    intro oo
    unfold encode
    rw [if_neg (by omega)]
    cases hwl : writeLoop enc (encRow m.src m.dx.toNat) m.dy.toNat with
    | mk res evs =>
      cases res <;> simp [encPrologue]
  exact ⟨rfl, hmem (some o), hmem none⟩

/-- Witness for C10: a zero-valued options struct forwards quality 0 (not
the default 75) to the native library. -/
theorem quality_forwarded_unmodified_witness :
    resolveQuality (some ⟨0⟩) = 0 ∧
    EncEvent.setQuality 0 ∈
      (encode ⟨1, 1, PixSrc.gray 1 [9]⟩ (some ⟨0⟩)
        ⟨fun _ _ _ _ _ => [], fun _ => none⟩).2 ∧
    EncEvent.setQuality 75 ∈
      (encode ⟨1, 1, PixSrc.gray 1 [9]⟩ none
        ⟨fun _ _ _ _ _ => [], fun _ => none⟩).2 :=
  quality_forwarded_unmodified ⟨1, 1, PixSrc.gray 1 [9]⟩ ⟨0⟩
    ⟨fun _ _ _ _ _ => [], fun _ => none⟩ (by decide) (by decide)

/-- C4: encode-direction marshaling per scanline: a gray source row is
copied 1 byte/pixel directly; a 4-byte/pixel RGBA source row has only its
R, G, B bytes copied (alpha dropped, source advancing 4 bytes per pixel)
into a tightly packed 3-byte/pixel native row; any other pixel source is
encoded by per-pixel red/green/blue queries taking the high byte of each
16-bit channel value, with alpha discarded. -/
theorem encode_marshaling (stride1 stride2 : Nat) (pix1 pix2 : List Nat)
    (pxAt : Nat → Nat → Nat × Nat × Nat × Nat) (dx y x : Nat) (hx : x < dx)
    (hg : y * stride1 + x < pix1.length) :
    ((encRow (PixSrc.gray stride1 pix1) dx y).length = dx ∧
     (encRow (PixSrc.gray stride1 pix1) dx y).getD x 0 =
       pix1.getD (y * stride1 + x) 0) ∧
    ((encRow (PixSrc.rgba stride2 pix2) dx y).length = dx * 3 ∧
     (encRow (PixSrc.rgba stride2 pix2) dx y).getD (3 * x) 0 =
       pix2.getD (y * stride2 + 4 * x) 0 ∧
     (encRow (PixSrc.rgba stride2 pix2) dx y).getD (3 * x + 1) 0 =
       pix2.getD (y * stride2 + (4 * x + 1)) 0 ∧
     (encRow (PixSrc.rgba stride2 pix2) dx y).getD (3 * x + 2) 0 =
       pix2.getD (y * stride2 + (4 * x + 2)) 0) ∧
    ((encRow (PixSrc.generic pxAt) dx y).length = dx * 3 ∧
     (encRow (PixSrc.generic pxAt) dx y).getD (3 * x) 0 = hi8 (pxAt x y).1 ∧
     (encRow (PixSrc.generic pxAt) dx y).getD (3 * x + 1) 0 = hi8 (pxAt x y).2.1 ∧
     (encRow (PixSrc.generic pxAt) dx y).getD (3 * x + 2) 0 = hi8 (pxAt x y).2.2.1) := by
  refine ⟨⟨copyRow_length _ _, ?_⟩, ⟨?_, ?_, ?_, ?_⟩, ⟨?_, ?_, ?_, ?_⟩⟩
  · show (copyRow dx (pix1.drop (y * stride1))).getD x 0 = _
    rw [copyRow_getD dx _ x hx (by simp; omega), getD_drop]
  · exact loopAppend_length _ 3 (fun i => by simp) dx
  · show (rgbaEncRow stride2 pix2 dx y).getD (3 * x) 0 = _
    unfold rgbaEncRow
    rw [loopAppend_getD _ 3 dx x 0 _ (fun i => by simp) hx (by omega) (by ring) 0]
    simp [getD_drop]
  · show (rgbaEncRow stride2 pix2 dx y).getD (3 * x + 1) 0 = _
    unfold rgbaEncRow
    rw [loopAppend_getD _ 3 dx x 1 _ (fun i => by simp) hx (by omega) (by ring) 0]
    simp [getD_drop]
  · show (rgbaEncRow stride2 pix2 dx y).getD (3 * x + 2) 0 = _
    unfold rgbaEncRow
    rw [loopAppend_getD _ 3 dx x 2 _ (fun i => by simp) hx (by omega) (by ring) 0]
    simp [getD_drop]
  · exact loopAppend_length _ 3 (fun i => by simp) dx
  · show (genericEncRow pxAt dx y).getD (3 * x) 0 = _
    unfold genericEncRow
    rw [loopAppend_getD _ 3 dx x 0 _ (fun i => by simp) hx (by omega) (by ring) 0]
    simp
  · show (genericEncRow pxAt dx y).getD (3 * x + 1) 0 = _
    unfold genericEncRow
    rw [loopAppend_getD _ 3 dx x 1 _ (fun i => by simp) hx (by omega) (by ring) 0]
    simp
  · show (genericEncRow pxAt dx y).getD (3 * x + 2) 0 = _
    unfold genericEncRow
    rw [loopAppend_getD _ 3 dx x 2 _ (fun i => by simp) hx (by omega) (by ring) 0]
    simp

/-- Witness for C4 at concrete rows: gray byte copied through, RGBA bytes
5, 6, 7 of pixel 1 copied with the alpha byte 8 skipped, and the generic
source packing high bytes 18, 86, 154 of the 16-bit channels. -/
theorem encode_marshaling_witness :
    (encRow (PixSrc.gray 2 [9, 8, 7, 6]) 2 1).getD 1 0 = 6 ∧
    (encRow (PixSrc.rgba 0 [1, 2, 3, 4, 5, 6, 7, 8]) 2 1).getD 3 0 = 5 ∧
    (encRow (PixSrc.rgba 0 [1, 2, 3, 4, 5, 6, 7, 8]) 2 1).getD 4 0 = 6 ∧
    (encRow (PixSrc.rgba 0 [1, 2, 3, 4, 5, 6, 7, 8]) 2 1).getD 5 0 = 7 ∧
    (encRow (PixSrc.generic (fun _ _ => (4660, 22136, 39612, 65535))) 2 1).getD 3 0 = 18 := by
  have h := encode_marshaling 2 0 [9, 8, 7, 6] [1, 2, 3, 4, 5, 6, 7, 8]
    (fun _ _ => (4660, 22136, 39612, 65535)) 2 1 1 (by decide) (by decide)
  obtain ⟨⟨-, h1⟩, ⟨-, h3, h4, h5⟩, ⟨-, h7, -, -⟩⟩ := h
  exact ⟨h1.trans (by decide), h3.trans (by decide), h4.trans (by decide),
    h5.trans (by decide), h7.trans (by decide)⟩

/-- C2: for every input whose header reports component count n, decode
selects the strategy: n=1 produces a grayscale image; n=3 requests native
extended-RGBA output from the codec (out_color_space set to JCS_EXT_RGBA)
and produces an RGBA image; n=4 produces an RGBA image via the
inverted-CMYK correction; for any other n, DecodeData returns the
invalid-component-count error rather than crashing or returning an
image. -/
theorem decode_component_strategy (d : List Nat) (src : NativeSrc)
    (hd : d ≠ []) (hhf : src.headerFatal = none) (hres : src.headerRes = 1)
    (hsf : src.startFatal = none)
    (hscan : ∀ cs y, src.scanFatal cs y = none) :
    (src.numComponents = 1 →
      (decodeData d src).1 =
        (some (DecodedImage.gray (decodeToGray src.width src.height
          (src.scan OutColorSpace.dflt))), none)) ∧
    (src.numComponents = 3 →
      (decodeData d src).1 =
        (some (DecodedImage.rgba (decodeToRgba src.width src.height
          (src.scan OutColorSpace.extRGBA))), none) ∧
      DecEvent.setExtRgba ∈ (decodeData d src).2) ∧
    (src.numComponents = 4 →
      (decodeData d src).1 =
        (some (DecodedImage.rgba (decodeCmykToRgba src.width src.height
          (src.scan OutColorSpace.dflt))), none)) ∧
    (src.numComponents ≠ 1 → src.numComponents ≠ 3 → src.numComponents ≠ 4 →
      (decodeData d src).1 =
        (none, some (JpegError.invalidComponents src.numComponents))) := by
  refine ⟨?_, ?_, ?_, ?_⟩
  · intro hn
    simp only [decodeData, if_neg hd, hhf, hres, hsf, hn, decodeRows,
      readLoop_noFatal src _ _ _ (fun y hy => hscan _ y)]
    simp [decodeToGray]
  · intro hn
    simp only [decodeData, if_neg hd, hhf, hres, hsf, hn, decodeRows,
      readLoop_noFatal src _ _ _ (fun y hy => hscan _ y)]
    simp [decodeToRgba, decDefers]
  · intro hn
    simp only [decodeData, if_neg hd, hhf, hres, hsf, hn, decodeRows,
      readLoop_noFatal src _ _ _ (fun y hy => hscan _ y)]
    simp [decodeCmykToRgba]
  · intro h1 h3 h4
    simp only [decodeData, if_neg hd, hhf, hres, hsf]
    simp [h1, h3, h4]

/-- Witness for C2: a synthetic header reporting 2 components yields the
invalid-component-count error and no image. -/
theorem decode_component_strategy_witness :
    (decodeData [1] ⟨none, 1, 2, 4, 4, none, fun _ _ => none, fun _ _ => []⟩).1 =
      (none, some (JpegError.invalidComponents 2)) := by
  have h := decode_component_strategy [1]
    ⟨none, 1, 2, 4, 4, none, fun _ _ => none, fun _ _ => []⟩
    (by decide) rfl rfl rfl (fun _ _ => rfl)
  exact h.2.2.2 (by decide) (by decide) (by decide)

/-- A fully materialized decoded image: the pixel buffer covers exactly
height rows of stride bytes, with the stride the one fixed by the image
constructor used (width for gray, four times width for RGBA). -/
def completeDecoded : DecodedImage → Prop
  | DecodedImage.gray g => g.stride = g.dx ∧ g.pix.length = g.dy * g.stride
  | DecodedImage.rgba r => r.stride = 4 * r.dx ∧ r.pix.length = r.dy * r.stride

theorem decodeData_shape (d : List Nat) (src : NativeSrc) :
    (∃ img, (decodeData d src).1 = (some img, none) ∧ completeDecoded img) ∨
    (∃ e, (decodeData d src).1 = (none, some e)) := by
  by_cases hd : d = []
  · right
    exact ⟨JpegError.runtimePanic "runtime error: index out of range",
      by simp [decodeData, hd]⟩
  cases hhf : src.headerFatal with
  | some msg =>
    right
    exact ⟨JpegError.nativeFatal msg, by simp [decodeData, if_neg hd, hhf]⟩
  | none =>
  by_cases hres : src.headerRes = 1
  case neg =>
    right
    exact ⟨JpegError.headerFailed src.headerRes,
      by simp [decodeData, if_neg hd, hhf, hres]⟩
  case pos =>
  cases hsf : src.startFatal with
  | some msg =>
    right
    exact ⟨JpegError.nativeFatal msg,
      by simp [decodeData, if_neg hd, hhf, hres, hsf]⟩
  | none =>
  by_cases h1 : src.numComponents = 1
  · cases hrl : readLoop src OutColorSpace.dflt (copyRow src.width) src.height with
    | mk res evs =>
      cases res with
      | ok px =>
        left
        refine ⟨DecodedImage.gray ⟨src.width, src.height, src.width, px⟩, ?_, ?_⟩
        · simp [decodeData, if_neg hd, hhf, hres, hsf, h1, decodeRows, hrl]
        · refine ⟨rfl, ?_⟩
          rw [readLoop_ok_inv _ _ _ _ _ _ hrl,
            loopAppend_length _ src.width (fun y => copyRow_length _ _)]
      | error msg =>
        right
        exact ⟨JpegError.nativeFatal msg,
          by simp [decodeData, if_neg hd, hhf, hres, hsf, h1, decodeRows, hrl]⟩
  by_cases h3 : src.numComponents = 3
  · cases hrl : readLoop src OutColorSpace.extRGBA (copyRow (4 * src.width))
        src.height with
    | mk res evs =>
      cases res with
      | ok px =>
        left
        refine ⟨DecodedImage.rgba ⟨src.width, src.height, 4 * src.width, px⟩, ?_, ?_⟩
        · simp [decodeData, if_neg hd, hhf, hres, hsf, h1, h3, decodeRows, hrl]
        · refine ⟨rfl, ?_⟩
          rw [readLoop_ok_inv _ _ _ _ _ _ hrl,
            loopAppend_length _ (4 * src.width) (fun y => copyRow_length _ _)]
      | error msg =>
        right
        exact ⟨JpegError.nativeFatal msg,
          by simp [decodeData, if_neg hd, hhf, hres, hsf, h1, h3, decodeRows, hrl]⟩
  by_cases h4 : src.numComponents = 4
  · cases hrl : readLoop src OutColorSpace.dflt
        (fun row => cmykRowToRgba row src.width) src.height with
    | mk res evs =>
      cases res with
      | ok px =>
        left
        refine ⟨DecodedImage.rgba ⟨src.width, src.height, 4 * src.width, px⟩, ?_, ?_⟩
        · simp [decodeData, if_neg hd, hhf, hres, hsf, h1, h3, h4, decodeRows, hrl]
        · refine ⟨rfl, ?_⟩
          rw [readLoop_ok_inv _ _ _ _ _ _ hrl,
            loopAppend_length _ (src.width * 4)
              (fun y => cmykRowToRgba_length _ _)]
          ring
      | error msg =>
        right
        exact ⟨JpegError.nativeFatal msg,
          by simp [decodeData, if_neg hd, hhf, hres, hsf, h1, h3, h4, decodeRows, hrl]⟩
  right
  exact ⟨JpegError.invalidComponents src.numComponents,
    by simp [decodeData, if_neg hd, hhf, hres, hsf, h1, h3, h4]⟩

theorem encode_shape (m : GoImage) (o : Option Options) (enc : NativeEnc) :
    (∃ out rows, (encode m o enc).1 = (some out, none) ∧
      rows.length = m.dy.toNat ∧
      out = enc.compress m.dx m.dy (inputComponents m.src) (resolveQuality o) rows) ∨
    (∃ e, (encode m o enc).1 = (none, some e)) := by
  by_cases hsz : m.dx ≤ 0 ∨ m.dy ≤ 0
  · right
    exact ⟨JpegError.invalidSize m.dx m.dy, by simp [encode, hsz]⟩
  · cases hwl : writeLoop enc (encRow m.src m.dx.toNat) m.dy.toNat with
    | mk res evs =>
      cases res with
      | ok rows =>
        left
        refine ⟨_, rows, ?_, ?_, rfl⟩
        · simp [encode, hsz, hwl]
        · rw [writeLoop_ok_inv _ _ _ _ _ hwl]
          simp
      | error msg =>
        right
        exact ⟨JpegError.nativeFatal msg, by simp [encode, hsz, hwl]⟩

/-- C6: for every input and every native behavior, Decode and Encode
return either a complete valid result or an error, never both and never a
half-filled one: a native fatal callback firing surfaces as an error value
with no image and no output bytes, a successful decode carries a pixel
buffer of exactly height times stride bytes, and a successful encode
output is the compressed form of exactly height full scanlines. -/
theorem decode_encode_no_partial (d : List Nat) (src : NativeSrc) (m : GoImage)
    (o : Option Options) (enc : NativeEnc) :
    (match (decodeData d src).1 with
     | (some img, none) => completeDecoded img
     | (none, some _) => True
     | _ => False) ∧
    (match (encode m o enc).1 with
     | (some out, none) => ∃ rows : List (List Nat), rows.length = m.dy.toNat ∧
         out = enc.compress m.dx m.dy (inputComponents m.src) (resolveQuality o) rows
     | (none, some _) => True
     | _ => False) := by
  constructor
  · rcases decodeData_shape d src with ⟨img, heq, hc⟩ | ⟨e, heq⟩ <;> rw [heq]
    · exact hc
    · trivial
  · rcases encode_shape m o enc with ⟨out, rows, heq, hlen, hout⟩ | ⟨e, heq⟩ <;>
      rw [heq]
    · exact ⟨rows, hlen, hout⟩
    · trivial

/-- Counterexample for C7: on an empty input buffer the decompression
context is created before anything checks the input, and the error
returned is the recovered runtime index panic, not a typed invalid-input
validation error produced before opening the context. -/
theorem empty_input_no_prevalidation :
    (decodeData [] ⟨none, 1, 3, 2, 2, none, fun _ _ => none, fun _ _ => []⟩).1 =
      (none, some (JpegError.runtimePanic "runtime error: index out of range")) ∧
    DecEvent.createDecompress ∈
      (decodeData [] ⟨none, 1, 3, 2, 2, none, fun _ _ => none, fun _ _ => []⟩).2 := by
  decide

/-- C7 amended: for an empty input byte buffer, DecodeData returns an
error and no image, but not through a prior non-empty validation: the
decompression context is created first, the failure is the recovered
index-out-of-range runtime panic from taking the address of the first
input byte, and the deferred context teardown still runs. -/
theorem empty_input_behavior (d : List Nat) (src : NativeSrc) (hd : d = []) :
    (decodeData d src).1 =
      (none, some (JpegError.runtimePanic "runtime error: index out of range")) ∧
    DecEvent.createDecompress ∈ (decodeData d src).2 ∧
    DecEvent.destroyDecompress ∈ (decodeData d src).2 := by
  subst hd
  refine ⟨?_, ?_, ?_⟩ <;> simp [decodeData, decDefers]

/-- Witness for C7 amended: concrete empty-input run. -/
theorem empty_input_behavior_witness :
    (decodeData [] ⟨none, 1, 1, 1, 1, none, fun _ _ => none, fun _ _ => []⟩).1 =
      (none, some (JpegError.runtimePanic "runtime error: index out of range")) ∧
    DecEvent.createDecompress ∈
      (decodeData [] ⟨none, 1, 1, 1, 1, none, fun _ _ => none, fun _ _ => []⟩).2 ∧
    DecEvent.destroyDecompress ∈
      (decodeData [] ⟨none, 1, 1, 1, 1, none, fun _ _ => none, fun _ _ => []⟩).2 :=
  empty_input_behavior [] ⟨none, 1, 1, 1, 1, none, fun _ _ => none, fun _ _ => []⟩ rfl

/-- C9: Decode and Encode are deterministic functions of their inputs:
decoding equal byte buffers against the same native behavior yields equal
results (so in particular pixel-identical images), and encoding equal
images with the same options yields identical results (so byte-identical
output). -/
theorem decode_encode_deterministic (d1 d2 : List Nat) (src : NativeSrc)
    (m1 m2 : GoImage) (o : Option Options) (enc : NativeEnc)
    (hd : d1 = d2) (hm : m1 = m2) :
    decodeData d1 src = decodeData d2 src ∧
    encode m1 o enc = encode m2 o enc ∧
    (∀ i1 i2, (decodeData d1 src).1.1 = some i1 →
      (decodeData d2 src).1.1 = some i2 → i1 = i2) := by
  subst hd
  subst hm
  refine ⟨rfl, rfl, ?_⟩
  intro i1 i2 h1 h2
  rw [h1] at h2
  exact Option.some.inj h2

/-- Witness for C9: concrete double decode and double encode of the same
inputs agree. -/
theorem decode_encode_deterministic_witness :
    (decodeData [1] ⟨none, 1, 1, 1, 1, none, fun _ _ => none, fun _ _ => [5]⟩ =
      decodeData [1] ⟨none, 1, 1, 1, 1, none, fun _ _ => none, fun _ _ => [5]⟩) ∧
    (encode ⟨1, 1, PixSrc.gray 1 [5]⟩ none ⟨fun _ _ _ _ _ => [], fun _ => none⟩ =
      encode ⟨1, 1, PixSrc.gray 1 [5]⟩ none ⟨fun _ _ _ _ _ => [], fun _ => none⟩) ∧
    (∀ i1 i2,
      (decodeData [1]
        ⟨none, 1, 1, 1, 1, none, fun _ _ => none, fun _ _ => [5]⟩).1.1 = some i1 →
      (decodeData [1]
        ⟨none, 1, 1, 1, 1, none, fun _ _ => none, fun _ _ => [5]⟩).1.1 = some i2 →
      i1 = i2) :=
  decode_encode_deterministic [1] [1]
    ⟨none, 1, 1, 1, 1, none, fun _ _ => none, fun _ _ => [5]⟩
    ⟨1, 1, PixSrc.gray 1 [5]⟩ ⟨1, 1, PixSrc.gray 1 [5]⟩ none
    ⟨fun _ _ _ _ _ => [], fun _ => none⟩ rfl rfl

end GoLibJpegTurbo
